import Mathlib

/-!
Verification of the ViaCortex reverse-proxy core against its specification.

The definitions below are a shallow embedding of the Go source:
`server/internal/proxy/proxy.go` (request pipeline, backend selection,
IP rules, rate limiting, TCP handling), `server/internal/proxy/loader.go`
(configuration loader), the health checker, and the metrics collector.
IP addresses are modelled as IPv4 32-bit naturals; `net.SplitHostPort`
is modelled for the unbracketed host:port form (IPv6 brackets are not
modelled).  Database results and network outcomes are oracle parameters.
-/

namespace ViaCortex

/-! ### String helpers: SplitHostPort and ParseIP (IPv4) -/

/-- Character-list prefix test; `strStartsWith` below mirrors Go
`strings.HasPrefix`. -/
def hasPrefixChars : List Char → List Char → Bool
  | _, [] => true
  | [], _ :: _ => false
  | c :: cs, p :: ps => c = p && hasPrefixChars cs ps

/-- Model of Go `strings.HasPrefix s pre`. -/
def strStartsWith (s pre : String) : Bool :=
  hasPrefixChars s.data pre.data

/-- Split a character list on a separator, mirroring `strings.Split` /
`String.splitOn` for a single-character separator. -/
def splitOnChar (sep : Char) : List Char → List (List Char)
  | [] => [[]]
  | c :: cs =>
    let rest := splitOnChar sep cs
    if c = sep then [] :: rest
    else
      match rest with
      | [] => [[c]]
      | r :: rs => (c :: r) :: rs

/-- Model of Go `net.SplitHostPort` for the plain `host:port` form: succeeds
exactly when the string contains a single colon (no IPv6 bracket handling). -/
def splitHostPort (s : String) : Option (String × String) :=
  match splitOnChar ':' s.data with
  | [h, p] => some (⟨h⟩, ⟨p⟩)
  | _ => none

/-- The `if host, _, err := net.SplitHostPort(s); err == nil { s = host }`
idiom used by `ServeHTTP`, `checkIPRules` and `checkRateLimit`. -/
def stripPort (s : String) : String :=
  match splitHostPort s with
  | some (h, _) => h
  | none => s

/-- Decimal value of a digit list (most significant first). -/
def digitsToNat : List Char → Nat → Nat
  | [], acc => acc
  | c :: cs, acc => digitsToNat cs (acc * 10 + (c.toNat - 48))

/-- One dotted-quad octet, as accepted by Go 1.17+ `net.ParseIP`:
1 to 3 digits, no leading zero, value at most 255. -/
def parseOctet (cs : List Char) : Option Nat :=
  if cs.length = 0 ∨ 3 < cs.length then none
  else if (cs.all fun c => c.isDigit) = false then none
  else if 1 < cs.length ∧ cs.headD '0' = '0' then none
  else if digitsToNat cs 0 ≤ 255 then some (digitsToNat cs 0) else none

/-- Model of Go `net.ParseIP` restricted to IPv4 dotted-quad form, returning
the address as a 32-bit natural. -/
def parseIPv4 (s : String) : Option Nat :=
  match splitOnChar '.' s.data with
  | [a, b, c, d] =>
    match parseOctet a, parseOctet b, parseOctet c, parseOctet d with
    | some x, some y, some z, some w => some (((x * 256 + y) * 256 + z) * 256 + w)
    | _, _, _, _ => none
  | _ => none

/-! ### Data model (`proxy.go` types) -/

/-- `BackendServer` from `proxy.go`; the IP is kept as its textual form
next to loader validation, ports and weights as naturals. -/
structure BackendServer where
  id : Int
  scheme : String
  ip : String
  port : Nat
  weight : Nat
  isActive : Bool
  healthStatus : Option String
deriving DecidableEq, Repr

/-- A CIDR block over IPv4 naturals; `contains` mirrors `net.IPNet.Contains`
(compare the masked upper `maskBits` bits). -/
structure IPNet where
  base : Nat
  maskBits : Nat
deriving DecidableEq, Repr

def IPNet.contains (n : IPNet) (ip : Nat) : Bool :=
  ip / 2 ^ (32 - n.maskBits) == n.base / 2 ^ (32 - n.maskBits)

/-- `IPRule` from `proxy.go`. -/
structure IPRule where
  id : Int
  ipRange : IPNet
  ruleType : String
  description : String
deriving DecidableEq, Repr

/-- `RateLimit` from `proxy.go`. -/
structure RateLimit where
  id : Int
  requestsPerSecond : Nat
  burstSize : Nat
  perIP : Bool
deriving DecidableEq, Repr

/-- `DomainConfig` from `proxy.go`; `currentBackend` is the round-robin
cursor (its zero value in Go is 0). -/
structure DomainConfig where
  domain : String
  backends : List BackendServer
  ipRules : List IPRule
  rateLimit : Option RateLimit
  sslEnabled : Bool
  healthCheckEnabled : Bool
  currentBackend : Nat
deriving DecidableEq, Repr

/-- The `p.domains` sync.Map, as an association list (range order =
list order, lookups keyed by routing key). -/
abbrev Store := List (String × DomainConfig)

def storeFind? : Store → String → Option DomainConfig
  | [], _ => none
  | (k', v) :: rest, k => if k' = k then some v else storeFind? rest k

/-- `sync.Map.Store`: replace the binding if the key is present, else append. -/
def storeInsert : Store → String → DomainConfig → Store
  | [], k, v => [(k, v)]
  | (k', v') :: rest, k, v =>
    if k' = k then (k, v) :: rest else (k', v') :: storeInsert rest k v

/-! ### Backend selection (`selectBackend`, proxy.go lines 835-854) -/

/-- The health predicate used everywhere in `proxy.go`:
`backend.IsActive && (backend.HealthStatus == nil || *backend.HealthStatus == "healthy")`. -/
def healthyOk (b : BackendServer) : Bool :=
  b.isActive && (b.healthStatus == none || b.healthStatus == some "healthy")

/-- The scan loop of `selectBackend`: advance the cursor modulo the length,
return the first candidate passing `healthyOk`, giving up after
`len(backends)` steps.  Returns the selected backend (if any) and the final
cursor value. -/
def selectLoop (bs : List BackendServer) : Nat → Nat → Option BackendServer × Nat
  | cur, 0 => (none, cur)
  | cur, fuel + 1 =>
    let cur' := (cur + 1) % bs.length
    match bs.get? cur' with
    | none => (none, cur')
    | some b => if healthyOk b then (some b, cur') else selectLoop bs cur' fuel

/-- `selectBackend` from proxy.go: round-robin over the backend list,
skipping entries that are inactive or unhealthy.  Note: the `Weight`
field is never consulted. -/
def selectBackend (cfg : DomainConfig) : Option BackendServer × DomainConfig :=
  if cfg.backends.length = 0 then (none, cfg)
  else
    let r := selectLoop cfg.backends cfg.currentBackend cfg.backends.length
    (r.1, { cfg with currentBackend := r.2 })

/-- A sequence of `n` consecutive `selectBackend` calls against the same
(config-pointer) state, returning the list of selections. -/
def runSelections : DomainConfig → Nat → List (Option BackendServer)
  | _, 0 => []
  | cfg, k + 1 =>
    let r := selectBackend cfg
    r.1 :: runSelections r.2 k

/-! ### Configuration loader (`loader.go`, `LoadAllDomains`) -/

/-- One row of the `domains` query together with the oracle results of the
per-domain follow-up queries (`loadBackends`, `loadIPRules`, `loadRateLimit`). -/
structure DomainRow where
  id : Int
  name : String
  targetURL : String
  sslEnabled : Bool
  healthCheckEnabled : Bool
  healthCheckInterval : Nat
  backendsResult : Except String (List BackendServer)
  ipRulesResult : Except String (List IPRule)
  rateLimitResult : Except String (Option RateLimit)

/-- loader.go lines 92-97: the key a row is published under — the row's
`name` when `target_url` starts with `tcp://`, otherwise `target_url`
itself, verbatim. -/
def rowKey (row : DomainRow) : String :=
  if strStartsWith row.targetURL "tcp://" then row.name else row.targetURL

/-- The `DomainConfig` assembled by `LoadAllDomains` for a row whose
backends loaded successfully; IP-rule / rate-limit load errors leave the
corresponding field empty (the Go code logs and keeps the nil result). -/
def mkConfig (row : DomainRow) (bs : List BackendServer) : DomainConfig :=
  { domain := rowKey row
    backends := bs
    ipRules := match row.ipRulesResult with | .ok rs => rs | .error _ => []
    rateLimit := match row.rateLimitResult with | .ok r => r | .error _ => none
    sslEnabled := row.sslEnabled
    healthCheckEnabled := row.healthCheckEnabled
    currentBackend := 0 }

/-- Body of the row loop in `LoadAllDomains`: on a backend-load error the
row is skipped (`continue`) and in particular its key is NOT added to
`loadedDomains`; otherwise the config is published (`UpdateDomain`) and the
key recorded. -/
def processRow (acc : Store × List String) (row : DomainRow) : Store × List String :=
  match row.backendsResult with
  | .error _ => acc
  | .ok bs => (storeInsert acc.1 (rowKey row) (mkConfig row bs), acc.2 ++ [rowKey row])

/-- The keys that a row list actually publishes (rows whose backends load). -/
def publishedKeys (rows : List DomainRow) : List String :=
  rows.filterMap fun r =>
    match r.backendsResult with
    | .ok _ => some (rowKey r)
    | .error _ => none

/-- `LoadAllDomains`: on a store-wide query error return immediately with
the store untouched; otherwise process every row and then delete every
stored key that is not in `loadedDomains` (loader.go lines 133-141). -/
def loadAllDomains (rowsQ : Except String (List DomainRow)) (store : Store) :
    Store × Option String :=
  match rowsQ with
  | .error e => (store, some e)
  | .ok rows =>
    let acc := rows.foldl processRow (store, [])
    (acc.1.filter fun kv => acc.2.contains kv.1, none)

/-- Modelled from the spec: "the bare host of `targetURL` (strip scheme,
strip any port)" — the routing key C1 claims `LoadAllDomains` computes for
non-tcp rows.  Compared against the source's `rowKey`. -/
def specBareHost (url : String) : String :=
  let cs := url.data
  let afterScheme : List Char :=
    if hasPrefixChars cs "https://".data then cs.drop 8
    else if hasPrefixChars cs "http://".data then cs.drop 7
    else cs
  stripPort ⟨afterScheme⟩

/-! ### Request pipeline (`ServeHTTP`, proxy.go lines 703-788) -/

/-- `checkIPRules` rule scan: the first rule whose range contains the client
IP is authoritative (`whitelist` permits, anything else forbids); with no
matching rule the default is to permit. -/
def ipRulesVerdict : List IPRule → Nat → Bool
  | [], _ => true
  | r :: rs, ip =>
    if r.ipRange.contains ip then r.ruleType == "whitelist" else ipRulesVerdict rs ip

/-- `checkIPRules` (proxy.go lines 790-809): strip the port from
`RemoteAddr`, parse the client IP — failure to parse denies the request —
then scan the rules in order. -/
def checkIPRules (remoteAddr : String) (cfg : DomainConfig) : Bool :=
  match parseIPv4 (stripPort remoteAddr) with
  | none => false
  | some ip => ipRulesVerdict cfg.ipRules ip

/-- The two parameters passed to `rate.NewLimiter`: refill rate and burst
capacity.  Token state is left to the `allow` oracle of the pipeline. -/
structure Limiter where
  limit : Nat
  burst : Nat
deriving DecidableEq, Repr

/-- The `p.rateLimits` sync.Map. -/
abbrev LimiterReg := List (String × Limiter)

def regFind? : LimiterReg → String → Option Limiter
  | [], _ => none
  | (k', v) :: rest, k => if k' = k then some v else regFind? rest k

/-- `sync.Map.LoadOrStore`: return the existing limiter, or store and
return the freshly constructed one. -/
def loadOrStore (reg : LimiterReg) (k : String) (v : Limiter) : Limiter × LimiterReg :=
  match regFind? reg k with
  | some l => (l, reg)
  | none => (v, reg ++ [(k, v)])

/-- The limiter key built in `checkRateLimit`:
`fmt.Sprintf("%s-%s", config.Domain, host)` when `PerIP`, else
`config.Domain` alone. -/
def rateLimitKey (cfg : DomainConfig) (remoteAddr : String) (rl : RateLimit) : String :=
  if rl.perIP then cfg.domain ++ "-" ++ stripPort remoteAddr else cfg.domain

/-- `checkRateLimit` (proxy.go lines 811-833); `allow` abstracts
`rate.Limiter.Allow` at the current instant. -/
def checkRateLimit (reg : LimiterReg) (cfg : DomainConfig) (remoteAddr : String)
    (allow : String → Limiter → Bool) : Bool × LimiterReg :=
  match cfg.rateLimit with
  | none => (true, reg)
  | some rl =>
    let key := rateLimitKey cfg remoteAddr rl
    let r := loadOrStore reg key ⟨rl.requestsPerSecond, rl.burstSize⟩
    (allow key r.1, r.2)

/-- An inbound HTTP request, reduced to the fields the pipeline reads. -/
structure Request where
  path : String
  host : String
  remoteAddr : String
deriving DecidableEq, Repr

/-- Outcome of relaying to the selected backend (oracle). -/
inductive UpstreamResult where
  | response (status : Nat)
  | transportError
deriving DecidableEq, Repr

/-- A record handed to the `MetricsCollector`: `RecordRequest` on a relayed
response, `RecordError` on an upstream transport failure. -/
inductive MetricsEvent where
  | request (domain : String) (status : Nat)
  | error (domain : String)
deriving DecidableEq, Repr

/-- How `ServeHTTP` disposes of a request. -/
inductive Outcome where
  | acmeHandled
  | notFound
  | forbidden
  | tooManyRequests
  | serviceUnavailable
  | proxied (b : BackendServer) (status : Nat)
  | badGateway
deriving DecidableEq, Repr

/-- The mutable state `ServeHTTP` touches: the domain snapshot and the
rate-limiter registry. -/
structure ProxyState where
  domains : Store
  rateLimiters : LimiterReg
deriving DecidableEq, Repr

/-- `ServeHTTP` (proxy.go lines 703-788): ACME check, host strip and
lookup (404), IP rules (403), rate limit (429), backend selection (503),
then relay — recording metrics only via `ModifyResponse`
(`RecordRequest`) or `ErrorHandler` (`RecordError`, 502). -/
def serveHTTP (st : ProxyState) (r : Request)
    (allow : String → Limiter → Bool) (upstream : UpstreamResult) :
    Outcome × List MetricsEvent × ProxyState :=
  if strStartsWith r.path "/.well-known/acme-challenge/" then
    (.acmeHandled, [], st)
  else
    let domain := stripPort r.host
    match storeFind? st.domains domain with
    | none => (.notFound, [], st)
    | some cfg =>
      if checkIPRules r.remoteAddr cfg then
        let rlr := checkRateLimit st.rateLimiters cfg r.remoteAddr allow
        let st1 : ProxyState := { st with rateLimiters := rlr.2 }
        if rlr.1 then
          let sel := selectBackend cfg
          let st2 : ProxyState := { st1 with domains := storeInsert st1.domains domain sel.2 }
          match sel.1 with
          | none => (.serviceUnavailable, [], st2)
          | some b =>
            match upstream with
            | .response s => (.proxied b s, [.request domain s], st2)
            | .transportError => (.badGateway, [.error domain], st2)
        else (.tooManyRequests, [], st1)
      else (.forbidden, [], st)

/-- The outcomes in which an upstream was contacted and exactly one
metrics record is written. -/
def reachedUpstream : Outcome → Bool
  | .proxied _ _ => true
  | .badGateway => true
  | _ => false

/-! ### TCP entry (`handleTCPConnection`, proxy.go lines 1079-1147) -/

/-- The domain-scan predicate of `handleTCPConnection`: the domain owns at
least one backend with scheme `tcp` that is active and healthy-or-unknown. -/
def hasActiveTCPBackend (cfg : DomainConfig) : Bool :=
  cfg.backends.any fun b => b.scheme == "tcp" && healthyOk b

/-- `p.domains.Range` scan for the first TCP-capable domain. -/
def findTCPDomain : Store → Option (String × DomainConfig)
  | [] => none
  | (k, cfg) :: rest =>
    if hasActiveTCPBackend cfg then some (k, cfg) else findTCPDomain rest

/-- Disposition of one accepted TCP connection. -/
inductive TCPOutcome where
  | noDomain
  | noBackend (domain : String)
  | closedNotTCP (domain : String) (b : BackendServer)
  | dialed (domain : String) (b : BackendServer)
deriving DecidableEq, Repr

/-- `handleTCPConnection` up to the dial: pick the first TCP-capable
domain, call the (unfiltered) `selectBackend`, and close without dialing
when the selected backend is not `tcp` (proxy.go lines 1143-1147). -/
def handleTCPConnection (st : Store) : TCPOutcome × Store :=
  match findTCPDomain st with
  | none => (.noDomain, st)
  | some (d, cfg) =>
    match (selectBackend cfg).1 with
    | none => (.noBackend d, storeInsert st d (selectBackend cfg).2)
    | some b =>
      if b.scheme == "tcp" then (.dialed d b, storeInsert st d (selectBackend cfg).2)
      else (.closedNotTCP d b, storeInsert st d (selectBackend cfg).2)

/-! ### Health checker (`checkBackendHealth`, healthcheck version at
Dockerfile composite lines 88-125) -/

/-- Outcome of one health-check attempt as the network would have it:
request-construction failure, transport failure, or an HTTP response. -/
inductive AttemptResult where
  | reqError
  | doError
  | response (status : Nat)
deriving DecidableEq, Repr

/-- Modelled Go net/http behavior: `http.Transport.RoundTrip` fails with
`unsupported protocol scheme` for any URL scheme other than `http` or
`https`, before any connection is dialed. -/
def clientDo (scheme : String) (a : AttemptResult) : AttemptResult :=
  if scheme == "http" || scheme == "https" then a else .doError

/-- The two-attempt loop of `checkBackendHealth`: a request-construction
error continues; a transport error continues on the first attempt and
returns `unhealthy` on the last; any response with status below 600 is
`healthy`; loop exhaustion is `unhealthy`. -/
def healthLoop (scheme : String) : List AttemptResult → String
  | [] => "unhealthy"
  | a :: rest =>
    match a with
    | .reqError => healthLoop scheme rest
    | a' =>
      match clientDo scheme a' with
      | .reqError => healthLoop scheme rest
      | .doError => if rest.isEmpty then "unhealthy" else healthLoop scheme rest
      | .response s => if s < 600 then "healthy" else healthLoop scheme rest

/-- `checkBackendHealth`: build `GET {scheme}://{ip}:{port}/` and try it up
to twice through the shared 5-second-timeout HTTP client.  There is no
separate branch for `tcp` backends. -/
def checkBackendHealth (scheme : String) (a0 a1 : AttemptResult) : String :=
  healthLoop scheme [a0, a1]

/-! ### Concrete instances used by the claim counterexamples and witnesses -/

def c3b0 : BackendServer := ⟨1, "http", "10.0.0.1", 8080, 2, true, some "healthy"⟩

def c3b1 : BackendServer := ⟨2, "http", "10.0.0.2", 8080, 1, true, some "healthy"⟩

def c3cfg : DomainConfig := ⟨"a.example", [c3b0, c3b1], [], none, false, false, 0⟩

def c9tcp : BackendServer := ⟨10, "tcp", "10.0.0.5", 25565, 1, true, some "healthy"⟩

def c9http : BackendServer := ⟨11, "http", "10.0.0.6", 8080, 1, true, some "healthy"⟩

def c9cfg : DomainConfig := ⟨"mc.example", [c9tcp, c9http], [], none, false, false, 0⟩

def c9store : Store := [("mc.example", c9cfg)]

def c1backend : BackendServer := ⟨1, "http", "10.0.0.1", 8080, 1, true, some "healthy"⟩

def c1row : DomainRow :=
  { id := 1, name := "api", targetURL := "https://api.example.com:8443",
    sslEnabled := false, healthCheckEnabled := false, healthCheckInterval := 30,
    backendsResult := .ok [c1backend], ipRulesResult := .ok [],
    rateLimitResult := .ok none }

def c2prevCfg : DomainConfig := ⟨"d1.example", [c1backend], [], none, false, false, 0⟩

def c2store : Store := [("d1.example", c2prevCfg)]

def c2row : DomainRow :=
  { id := 7, name := "d1", targetURL := "d1.example",
    sslEnabled := false, healthCheckEnabled := false, healthCheckInterval := 30,
    backendsResult := .error "backend query failed", ipRulesResult := .ok [],
    rateLimitResult := .ok none }

def c5backend : BackendServer := ⟨3, "http", "10.0.0.3", 80, 1, true, some "healthy"⟩

def c5prevCfg : DomainConfig := ⟨"d.example", [c5backend], [], none, false, false, 1⟩

def c5prevStore : Store := [("d.example", c5prevCfg)]

def c5row : DomainRow :=
  { id := 9, name := "d", targetURL := "d.example",
    sslEnabled := false, healthCheckEnabled := false, healthCheckInterval := 30,
    backendsResult := .ok [c5backend], ipRulesResult := .ok [],
    rateLimitResult := .ok none }

def allowAlways : String → Limiter → Bool := fun _ _ => true

def c4state : ProxyState := ⟨[], []⟩

def c4req : Request := ⟨"/", "nosuch.example", "198.51.100.7:4444"⟩

def c6rule : IPRule := ⟨1, ⟨3405803776, 24⟩, "blacklist", "block 203.0.113.0/24"⟩

def c6cfg : DomainConfig := ⟨"c.example", [c1backend], [c6rule], none, false, false, 0⟩

def c6state : ProxyState := ⟨[("c.example", c6cfg)], []⟩

def c6req : Request := ⟨"/", "c.example", "203.0.113.7:40000"⟩

def c6addr : String := "203.0.113.7:40000"

def c10addr : String := "@"

def c7rl : RateLimit := ⟨5, 2, 2, true⟩

def c7cfg : DomainConfig := ⟨"d.example", [c1backend], [], some c7rl, false, false, 0⟩

def c7state : ProxyState := ⟨[("d.example", c7cfg)], []⟩

def c7req : Request := ⟨"/", "d.example", "198.51.100.10:5555"⟩

def allowNever : String → Limiter → Bool := fun _ _ => false

def c10cfg : DomainConfig := ⟨"c.example", [c1backend], [], none, false, false, 0⟩

def c10state : ProxyState := ⟨[("c.example", c10cfg)], []⟩

def c10req : Request := ⟨"/", "c.example", "@"⟩

/-! ### Store and loader lemmas -/

theorem storeFind?_insert_self (s : Store) (k : String) (v : DomainConfig) :
    storeFind? (storeInsert s k v) k = some v := by
  induction s with
  | nil => simp [storeInsert, storeFind?]
  | cons kv rest ih =>
    obtain ⟨k0, v0⟩ := kv
    by_cases h : k0 = k
    · simp [storeInsert, storeFind?, h]
    · simp [storeInsert, storeFind?, h, ih]

theorem storeFind?_insert_ne (s : Store) (k k' : String) (v : DomainConfig)
    (h : k ≠ k') : storeFind? (storeInsert s k v) k' = storeFind? s k' := by
  induction s with
  | nil => simp [storeInsert, storeFind?, h]
  | cons kv rest ih =>
    obtain ⟨k0, v0⟩ := kv
    by_cases h0 : k0 = k
    · subst h0; simp [storeInsert, storeFind?, h]
    · simp [storeInsert, storeFind?, h0, ih]

theorem storeFind?_filter_contains (s : Store) (l : List String) (k : String) :
    storeFind? (s.filter fun kv => l.contains kv.1) k =
      if k ∈ l then storeFind? s k else none := by
  have hfun : (fun kv : String × DomainConfig => l.contains kv.1) =
      fun kv => decide (kv.1 ∈ l) := by
    funext kv; simp [List.contains]
  rw [hfun]
  induction s with
  | nil => simp [storeFind?]
  | cons kv rest ih =>
    obtain ⟨k0, v0⟩ := kv
    by_cases hk : k0 = k
    · subst hk
      by_cases hc : k0 ∈ l
      · simp [List.filter_cons, hc, storeFind?, ih]
      · simp [List.filter_cons, hc, storeFind?, ih]
    · by_cases hc : k0 ∈ l
      · simp [List.filter_cons, hc, storeFind?, hk, ih]
      · simp [List.filter_cons, hc, storeFind?, hk, ih]

theorem foldl_processRow_snd (rows : List DomainRow) (s : Store) (l : List String) :
    (rows.foldl processRow (s, l)).2 = l ++ publishedKeys rows := by
  induction rows generalizing s l with
  | nil => simp [publishedKeys]
  | cons row rest ih =>
    cases hb : row.backendsResult with
    | error e =>
      simp [List.foldl_cons, processRow, hb, publishedKeys, List.filterMap_cons, ih]
    | ok bs =>
      simp [List.foldl_cons, processRow, hb, publishedKeys, List.filterMap_cons, ih]

theorem mem_publishedKeys (rows : List DomainRow) (k : String) :
    k ∈ publishedKeys rows ↔
      ∃ r, r ∈ rows ∧ (∃ bs, r.backendsResult = .ok bs) ∧ k = rowKey r := by
  induction rows with
  | nil => simp [publishedKeys]
  | cons row rest ih =>
    cases hb : row.backendsResult with
    | error e =>
      rw [show publishedKeys (row :: rest) = publishedKeys rest from by
        simp [publishedKeys, List.filterMap_cons, hb]]
      rw [ih]
      constructor
      · rintro ⟨r, hr, hok, hk⟩
        exact ⟨r, List.mem_cons_of_mem _ hr, hok, hk⟩
      · rintro ⟨r, hr, ⟨bs, hok⟩, hk⟩
        rcases List.mem_cons.mp hr with rfl | hr'
        · rw [hok] at hb; cases hb
        · exact ⟨r, hr', ⟨bs, hok⟩, hk⟩
    | ok bs =>
      rw [show publishedKeys (row :: rest) = rowKey row :: publishedKeys rest from by
        simp [publishedKeys, List.filterMap_cons, hb]]
      constructor
      · intro h
        rcases List.mem_cons.mp h with rfl | h'
        · exact ⟨row, List.mem_cons_self _ _, ⟨bs, hb⟩, rfl⟩
        · obtain ⟨r, hr, hok, hk⟩ := ih.mp h'
          exact ⟨r, List.mem_cons_of_mem _ hr, hok, hk⟩
      · rintro ⟨r, hr, ⟨bs', hok⟩, hk⟩
        rcases List.mem_cons.mp hr with rfl | hr'
        · rw [hk]; exact List.mem_cons_self _ _
        · exact List.mem_cons_of_mem _ (ih.mpr ⟨r, hr', ⟨bs', hok⟩, hk⟩)

theorem foldl_processRow_find_not_published (rows : List DomainRow) :
    ∀ (s : Store) (l : List String) (k : String), k ∉ publishedKeys rows →
      storeFind? (rows.foldl processRow (s, l)).1 k = storeFind? s k := by
  induction rows with
  | nil => intro s l k _; rfl
  | cons row rest ih =>
    intro s l k hk
    cases hb : row.backendsResult with
    | error e =>
      have hk' : k ∉ publishedKeys rest := by
        simpa [publishedKeys, List.filterMap_cons, hb] using hk
      simpa [List.foldl_cons, processRow, hb] using ih s l k hk'
    | ok bs =>
      have hk1 : ¬(k = rowKey row ∨ k ∈ publishedKeys rest) := by
        simpa [publishedKeys, List.filterMap_cons, hb] using hk
      push_neg at hk1
      rw [List.foldl_cons]
      simp only [processRow, hb]
      rw [ih _ _ _ hk1.2]
      exact storeFind?_insert_ne _ _ _ _ fun h => hk1.1 h.symm

theorem foldl_processRow_find_published (rows : List DomainRow) :
    ∀ (k : String), k ∈ publishedKeys rows →
      ∀ (s1 : Store) (l1 : List String) (s2 : Store) (l2 : List String),
        storeFind? (rows.foldl processRow (s1, l1)).1 k =
          storeFind? (rows.foldl processRow (s2, l2)).1 k := by
  induction rows with
  | nil => intro k h; simp [publishedKeys] at h
  | cons row rest ih =>
    intro k hk s1 l1 s2 l2
    cases hb : row.backendsResult with
    | error e =>
      have hk' : k ∈ publishedKeys rest := by
        simpa [publishedKeys, List.filterMap_cons, hb] using hk
      simpa [List.foldl_cons, processRow, hb] using ih k hk' s1 l1 s2 l2
    | ok bs =>
      by_cases hmem : k ∈ publishedKeys rest
      · simpa [List.foldl_cons, processRow, hb] using ih k hmem _ _ _ _
      · have hkey : k = rowKey row := by
          have h' := hk
          simp only [publishedKeys, List.filterMap_cons, hb, List.mem_cons] at h'
          rcases h' with h' | h'
          · exact h'
          · exact absurd h' hmem
        subst hkey
        rw [List.foldl_cons, List.foldl_cons]
        simp only [processRow, hb]
        rw [foldl_processRow_find_not_published rest _ _ _ hmem,
          foldl_processRow_find_not_published rest _ _ _ hmem,
          storeFind?_insert_self, storeFind?_insert_self]

theorem foldl_processRow_cursor (rows : List DomainRow) :
    ∀ (k : String), k ∈ publishedKeys rows →
      ∀ (s : Store) (l : List String) (cfg : DomainConfig),
        storeFind? (rows.foldl processRow (s, l)).1 k = some cfg →
        cfg.currentBackend = 0 := by
  induction rows with
  | nil => intro k h; simp [publishedKeys] at h
  | cons row rest ih =>
    intro k hk s l cfg hfind
    cases hb : row.backendsResult with
    | error e =>
      have hk' : k ∈ publishedKeys rest := by
        simpa [publishedKeys, List.filterMap_cons, hb] using hk
      rw [List.foldl_cons] at hfind
      simp only [processRow, hb] at hfind
      exact ih k hk' _ _ _ hfind
    | ok bs =>
      by_cases hmem : k ∈ publishedKeys rest
      · rw [List.foldl_cons] at hfind
        simp only [processRow, hb] at hfind
        exact ih k hmem _ _ _ hfind
      · have hkey : k = rowKey row := by
          have h' := hk
          simp only [publishedKeys, List.filterMap_cons, hb, List.mem_cons] at h'
          rcases h' with h' | h'
          · exact h'
          · exact absurd h' hmem
        subst hkey
        rw [List.foldl_cons] at hfind
        simp only [processRow, hb] at hfind
        rw [foldl_processRow_find_not_published rest _ _ _ hmem,
          storeFind?_insert_self] at hfind
        cases hfind
        rfl

theorem contains_eq_decide_mem (l : List String) (k : String) :
    l.contains k = decide (k ∈ l) := by
  simp [List.contains]

/-! ### Selection lemmas -/

theorem selectBackend_all_healthy (cfg : DomainConfig)
    (hne : cfg.backends ≠ [])
    (hh : ∀ b ∈ cfg.backends, healthyOk b = true) :
    selectBackend cfg =
      (cfg.backends.get? ((cfg.currentBackend + 1) % cfg.backends.length),
       { cfg with currentBackend := (cfg.currentBackend + 1) % cfg.backends.length }) := by
  have hlen : 0 < cfg.backends.length := List.length_pos.mpr hne
  have hlt : (cfg.currentBackend + 1) % cfg.backends.length < cfg.backends.length :=
    Nat.mod_lt _ hlen
  obtain ⟨m, hm⟩ : ∃ m, cfg.backends.length = m + 1 := ⟨cfg.backends.length - 1, by omega⟩
  have hget : cfg.backends.get? ((cfg.currentBackend + 1) % cfg.backends.length) =
      some (cfg.backends.get ⟨_, hlt⟩) := List.get?_eq_get hlt
  have hbh : healthyOk (cfg.backends.get ⟨_, hlt⟩) = true :=
    hh _ (cfg.backends.get_mem _ _)
  rw [selectBackend, if_neg (by omega)]
  conv in selectLoop _ _ cfg.backends.length => rw [hm]
  rw [selectLoop]
  simp only [hget, hbh, if_pos]

theorem runSelections_all_healthy (bs : List BackendServer)
    (hne : bs ≠ []) (hh : ∀ b ∈ bs, healthyOk b = true) :
    ∀ (k : Nat) (cfg : DomainConfig), cfg.backends = bs →
      runSelections cfg k =
        (List.range k).map fun i => bs.get? ((cfg.currentBackend + 1 + i) % bs.length) := by
  intro k
  induction k with
  | zero => intro cfg _; rfl
  | succ k ih =>
    intro cfg hbs
    have hne' : cfg.backends ≠ [] := by rw [hbs]; exact hne
    have hh' : ∀ b ∈ cfg.backends, healthyOk b = true := by rw [hbs]; exact hh
    have hsel := selectBackend_all_healthy cfg hne' hh'
    show (selectBackend cfg).1 :: runSelections (selectBackend cfg).2 k = _
    rw [hsel]
    dsimp only
    rw [hbs]
    rw [ih (⟨cfg.domain, bs, cfg.ipRules, cfg.rateLimit, cfg.sslEnabled,
      cfg.healthCheckEnabled, (cfg.currentBackend + 1) % bs.length⟩ : DomainConfig) rfl]
    rw [List.range_succ_eq_map, List.map_cons, List.map_map]
    congr 1
    apply List.map_congr_left
    intro a _
    show bs.get? (((cfg.currentBackend + 1) % bs.length + 1 + a) % bs.length) =
      bs.get? ((cfg.currentBackend + 1 + Nat.succ a) % bs.length)
    congr 1
    rw [Nat.add_assoc, Nat.mod_add_mod]
    congr 1
    omega

theorem permModRange (n a : Nat) (hn : 0 < n) :
    ((List.range n).map fun i => (a + i) % n).Perm (List.range n) := by
  have hnodup : ((List.range n).map fun i => (a + i) % n).Nodup := by
    refine List.Nodup.map_on ?_ (List.nodup_range n)
    intro x hx y hy hxy
    have hx' : x < n := List.mem_range.mp hx
    have hy' : y < n := List.mem_range.mp hy
    have hmod : x % n = y % n :=
      Nat.ModEq.add_left_cancel' a (hxy : (a + x) % n = (a + y) % n)
    rwa [Nat.mod_eq_of_lt hx', Nat.mod_eq_of_lt hy'] at hmod
  have hsub : ((List.range n).map fun i => (a + i) % n) ⊆ List.range n := by
    intro x hx
    obtain ⟨i, _, rfl⟩ := List.mem_map.mp hx
    exact List.mem_range.mpr (Nat.mod_lt _ hn)
  exact (List.subperm_of_subset hnodup hsub).perm_of_length_le (by simp)

theorem range_map_get? {α : Type} (l : List α) :
    (List.range l.length).map l.get? = l.map some := by
  induction l with
  | nil => rfl
  | cons x xs ih =>
    rw [List.length_cons, List.range_succ_eq_map, List.map_cons, List.map_map]
    rw [show ((x :: xs).get? ∘ Nat.succ) = xs.get? from rfl]
    rw [ih, List.map_cons]
    rfl

/-! ### Claim C3: weighted round robin -/

/-- C3 counterexample: with two active healthy backends of weights 2 and 1
(`Σ weights = 3`), the weight-2 backend is returned once — not
`weight(b) = 2` times — over a window of 3 consecutive `selectBackend`
calls, so the claimed weighted behaviour is false. -/
theorem c3_counterexample :
    (∀ b ∈ c3cfg.backends, healthyOk b = true) ∧
    (c3cfg.backends.map fun b => b.weight).sum = 3 ∧
    c3b0.weight = 2 ∧
    (runSelections c3cfg 3).count (some c3b0) = 1 := by
  decide

/-- C3 (amended): `selectBackend` performs unweighted round robin — over a
window of `len(backends)` consecutive calls on a config whose backends are
all active and healthy (or of unknown health), each backend value is
returned exactly as often as it occurs in the backend list, regardless of
the `Weight` field. -/
theorem c3_theorem (cfg : DomainConfig) (hne : cfg.backends ≠ [])
    (hh : ∀ b ∈ cfg.backends, healthyOk b = true) (b : BackendServer) :
    (runSelections cfg cfg.backends.length).count (some b) = cfg.backends.count b := by
  rw [runSelections_all_healthy cfg.backends hne hh cfg.backends.length cfg rfl]
  have hn : 0 < cfg.backends.length := List.length_pos.mpr hne
  have hmm : (fun i => cfg.backends.get? ((cfg.currentBackend + 1 + i) % cfg.backends.length)) =
      cfg.backends.get? ∘ fun i => (cfg.currentBackend + 1 + i) % cfg.backends.length := rfl
  rw [hmm, ← List.map_map]
  have hperm := (permModRange cfg.backends.length (cfg.currentBackend + 1) hn).map
    cfg.backends.get?
  simp only [List.count]
  rw [hperm.countP_eq]
  rw [range_map_get?]
  rw [List.countP_map]
  rfl

/-- Witness for C3 at the concrete two-backend config. -/
theorem c3_witness :
    (runSelections c3cfg c3cfg.backends.length).count (some c3b0) =
      c3cfg.backends.count c3b0 :=
  c3_theorem c3cfg (by decide) (by decide) c3b0

/-! ### Claim C8: TCP backend health checks -/

/-- C8: the health checker has no TCP branch — for a backend of scheme
`tcp` it issues an HTTP GET to `tcp://ip:port/` which the Go transport
rejects before dialing, so the recorded status is `unhealthy` for every
possible network behaviour, including a backend whose `ip:port` accepts
connections.  (The claim — and the spec — say a successful 5-second dial
yields `healthy`.) -/
theorem c8_theorem (a0 a1 : AttemptResult) :
    checkBackendHealth "tcp" a0 a1 = "unhealthy" := by
  cases a0 <;> cases a1 <;> rfl

/-! ### Claim C9: TCP connections and non-tcp backends -/

theorem findTCPDomain_hasTCP : ∀ (st : Store) (d : String) (cfg : DomainConfig),
    findTCPDomain st = some (d, cfg) → hasActiveTCPBackend cfg = true := by
  intro st
  induction st with
  | nil => intro d cfg h; cases h
  | cons kv rest ih =>
    intro d cfg h
    obtain ⟨k, c⟩ := kv
    by_cases hc : hasActiveTCPBackend c
    · simp only [findTCPDomain, if_pos hc] at h
      obtain ⟨rfl, rfl⟩ : k = d ∧ c = cfg := by
        simpa using h
      exact hc
    · simp only [findTCPDomain, if_neg hc] at h
      exact ih d cfg h

/-- C9 counterexample: a domain whose backend list holds an active healthy
`tcp` backend followed by an active healthy `http` backend — the unfiltered
round robin selects the `http` backend and the connection is closed without
dialing any tcp backend. -/
theorem c9_counterexample :
    hasActiveTCPBackend c9cfg = true ∧
    (handleTCPConnection c9store).1 = .closedNotTCP "mc.example" c9http := by
  decide

/-- C9 (amended): `handleTCPConnection` selects via the unfiltered
`selectBackend`; whenever it dials, the dialed backend does have scheme
`tcp`, but when the selected backend is not `tcp` the connection is closed
without dialing — even though the chosen domain owns an active healthy
tcp backend. -/
theorem c9_theorem :
    (∀ (st : Store) (d : String) (b : BackendServer) (st' : Store),
        handleTCPConnection st = (.dialed d b, st') → b.scheme = "tcp")
  ∧ (∀ (st : Store) (d : String) (b : BackendServer) (st' : Store),
        handleTCPConnection st = (.closedNotTCP d b, st') →
        b.scheme ≠ "tcp" ∧
          ∃ cfg, findTCPDomain st = some (d, cfg) ∧ hasActiveTCPBackend cfg = true) := by
  constructor
  · intro st d b st' h
    unfold handleTCPConnection at h
    split at h
    · cases h
    · split at h
      · cases h
      · split at h
        · rename_i heqf sel b0 heqs hsch
          obtain ⟨h1, -⟩ := Prod.mk.inj h
          obtain ⟨-, rfl⟩ := TCPOutcome.dialed.inj h1
          simpa using hsch
        · cases h
  · intro st d b st' h
    unfold handleTCPConnection at h
    split at h
    · cases h
    · split at h
      · cases h
      · split at h
        · cases h
        · rename_i heqf sel b0 heqs hsch
          obtain ⟨h1, -⟩ := Prod.mk.inj h
          obtain ⟨rfl, rfl⟩ := TCPOutcome.closedNotTCP.inj h1
          refine ⟨by simpa using hsch, ?_⟩
          rename_i d0 cfg0
          exact ⟨cfg0, heqf, findTCPDomain_hasTCP st _ _ heqf⟩

/-- Witness for C9: a store with a single, purely tcp backend dials it. -/
theorem c9_witness : c9tcp.scheme = "tcp" :=
  c9_theorem.1 [("mc.example", ⟨"mc.example", [c9tcp], [], none, false, false, 0⟩)]
    "mc.example" c9tcp
    (storeInsert [("mc.example", ⟨"mc.example", [c9tcp], [], none, false, false, 0⟩)]
      "mc.example" ⟨"mc.example", [c9tcp], [], none, false, false, 0⟩)
    (by decide)

theorem loadAllDomains_ok (rows : List DomainRow) (store : Store) :
    loadAllDomains (.ok rows) store =
      ((rows.foldl processRow (store, [])).1.filter
        fun kv => (rows.foldl processRow (store, [])).2.contains kv.1, none) := rfl

/-! ### Claim C1: routing keys -/

/-- C1 counterexample: the row with `target_url`
`https://api.example.com:8443` is published under that URL verbatim; the
bare host `api.example.com` the claim names is not a key of the published
snapshot. -/
theorem c1_counterexample :
    specBareHost c1row.targetURL = "api.example.com" ∧
    storeFind? (loadAllDomains (.ok [c1row]) []).1 "api.example.com" = none ∧
    storeFind? (loadAllDomains (.ok [c1row]) []).1 "https://api.example.com:8443" =
      some (mkConfig c1row [c1backend]) := by
  refine ⟨rfl, rfl, rfl⟩

/-- C1 (amended): every routing key published by `LoadAllDomains` is the
row's `name` when `target_url` starts with `tcp://` and `target_url`
verbatim otherwise — no scheme or port stripping; and a row with
successfully loaded backends is indeed published under that key. -/
theorem c1_theorem :
    (∀ (rows : List DomainRow) (store : Store) (k : String) (cfg : DomainConfig),
        storeFind? (loadAllDomains (.ok rows) store).1 k = some cfg →
        ∃ r, r ∈ rows ∧ (∃ bs, r.backendsResult = .ok bs) ∧
          k = if strStartsWith r.targetURL "tcp://" then r.name else r.targetURL)
  ∧ (∀ (row : DomainRow) (store : Store) (bs : List BackendServer),
        row.backendsResult = .ok bs →
        storeFind? (loadAllDomains (.ok [row]) store).1
          (if strStartsWith row.targetURL "tcp://" then row.name else row.targetURL) =
          some (mkConfig row bs)) := by
  constructor
  · intro rows store k cfg hfind
    rw [loadAllDomains_ok] at hfind
    rw [foldl_processRow_snd rows store [], List.nil_append] at hfind
    rw [storeFind?_filter_contains] at hfind
    by_cases hk : k ∈ publishedKeys rows
    · obtain ⟨r, hr, hok, hkey⟩ := (mem_publishedKeys rows k).mp hk
      exact ⟨r, hr, hok, hkey⟩
    · rw [if_neg hk] at hfind
      cases hfind
  · intro row store bs hb
    rw [show (if strStartsWith row.targetURL "tcp://" then row.name else row.targetURL) =
      rowKey row from rfl]
    rw [loadAllDomains_ok]
    rw [foldl_processRow_snd [row] store [], List.nil_append]
    rw [storeFind?_filter_contains]
    have hkeys : publishedKeys [row] = [rowKey row] := by
      simp [publishedKeys, List.filterMap_cons, hb]
    rw [hkeys]
    rw [if_pos (List.mem_singleton.mpr rfl)]
    rw [show [row].foldl processRow (store, []) = processRow (store, []) row from rfl]
    simp only [processRow, hb]
    exact storeFind?_insert_self store (rowKey row) (mkConfig row bs)

/-- Witness for C1 at a concrete tcp row and a concrete http row. -/
theorem c1_witness :
    storeFind? (loadAllDomains (.ok [c1row]) []).1
      (if strStartsWith c1row.targetURL "tcp://" then c1row.name else c1row.targetURL) =
      some (mkConfig c1row [c1backend]) :=
  c1_theorem.2 c1row [] [c1backend] rfl

/-! ### Claim C2: per-domain load errors and store-wide query failures -/

/-- C2 counterexample: a cycle whose domain-list query succeeds but whose
only row fails its backend load finishes without error, yet the domain's
previously published config has been removed from the store (the claim
says it is still present). -/
theorem c2_counterexample :
    storeFind? c2store "d1.example" = some c2prevCfg ∧
    (loadAllDomains (.ok [c2row]) c2store).2 = none ∧
    storeFind? (loadAllDomains (.ok [c2row]) c2store).1 "d1.example" = none := by
  refine ⟨rfl, rfl, rfl⟩

/-- C2 (amended): a store-wide query failure leaves the snapshot entirely
unchanged; a per-domain backend-load error skips that domain's publish, but
because the domain is then missing from `loadedDomains`, the end-of-cycle
cleanup removes its previously published config (when no other row
publishes the same key). -/
theorem c2_theorem :
    (∀ (e : String) (store : Store), loadAllDomains (.error e) store = (store, some e))
  ∧ (∀ (rows : List DomainRow) (store : Store) (row : DomainRow) (msg : String),
        row ∈ rows → row.backendsResult = .error msg →
        rowKey row ∉ publishedKeys rows →
        storeFind? (loadAllDomains (.ok rows) store).1 (rowKey row) = none) := by
  constructor
  · intro e store; rfl
  · intro rows store row msg _ _ hnp
    rw [loadAllDomains_ok]
    rw [foldl_processRow_snd rows store [], List.nil_append]
    rw [storeFind?_filter_contains]
    rw [if_neg hnp]

/-- Witness for C2 at the concrete failing row. -/
theorem c2_witness :
    storeFind? (loadAllDomains (.ok [c2row]) c2store).1 (rowKey c2row) = none :=
  c2_theorem.2 [c2row] c2store c2row "backend query failed"
    (List.mem_singleton.mpr rfl) rfl
    (by rw [show publishedKeys [c2row] = [] from rfl]; exact List.not_mem_nil _)

/-! ### Claim C5: reload determinism and the round-robin cursor -/

/-- C5 counterexample: the previous snapshot holds the routing key
`d.example` with round-robin cursor 1; after the reload republishes the
key, the new config's cursor is 0 — the cursor is reset, not preserved. -/
theorem c5_counterexample :
    storeFind? c5prevStore "d.example" = some c5prevCfg ∧
    c5prevCfg.currentBackend = 1 ∧
    storeFind? (loadAllDomains (.ok [c5row]) c5prevStore).1 "d.example" =
      some (mkConfig c5row [c5backend]) ∧
    (mkConfig c5row [c5backend]).currentBackend = 0 := by
  refine ⟨rfl, rfl, rfl, rfl⟩

/-- C5 (amended): the published snapshot is a function of the rows alone
(so two loads from identical store contents publish identical state), but
not because the cursor is preserved: every config `LoadAllDomains`
publishes has `currentBackend = 0`, discarding any previous cursor. -/
theorem c5_theorem :
    (∀ (rows : List DomainRow) (s1 s2 : Store) (k : String),
        storeFind? (loadAllDomains (.ok rows) s1).1 k =
          storeFind? (loadAllDomains (.ok rows) s2).1 k)
  ∧ (∀ (rows : List DomainRow) (store : Store) (k : String) (cfg : DomainConfig),
        storeFind? (loadAllDomains (.ok rows) store).1 k = some cfg →
        cfg.currentBackend = 0) := by
  constructor
  · intro rows s1 s2 k
    rw [loadAllDomains_ok, loadAllDomains_ok]
    rw [foldl_processRow_snd rows s1 [], foldl_processRow_snd rows s2 [],
      List.nil_append]
    rw [storeFind?_filter_contains, storeFind?_filter_contains]
    by_cases hk : k ∈ publishedKeys rows
    · rw [if_pos hk, if_pos hk]
      exact foldl_processRow_find_published rows k hk s1 [] s2 []
    · rw [if_neg hk, if_neg hk]
  · intro rows store k cfg hfind
    rw [loadAllDomains_ok] at hfind
    rw [foldl_processRow_snd rows store [], List.nil_append] at hfind
    rw [storeFind?_filter_contains] at hfind
    by_cases hk : k ∈ publishedKeys rows
    · rw [if_pos hk] at hfind
      exact foldl_processRow_cursor rows k hk store [] cfg hfind
    · rw [if_neg hk] at hfind
      cases hfind

/-- Witness for C5 at the concrete reload. -/
theorem c5_witness : (mkConfig c5row [c5backend]).currentBackend = 0 :=
  c5_theorem.2 [c5row] c5prevStore "d.example" (mkConfig c5row [c5backend]) rfl

/-! ### Claim C4: metrics records per request -/

/-- C4 counterexample: a request answered `404 Not Found` (unknown host)
produces zero metrics records, not exactly one. -/
theorem c4_counterexample :
    (serveHTTP c4state c4req allowAlways (.response 200)).1 = .notFound ∧
    (serveHTTP c4state c4req allowAlways (.response 200)).2.1 = [] := by
  refine ⟨rfl, rfl⟩

/-- C4 (amended): exactly one metrics record is produced iff the request
reaches the upstream stage (`RecordRequest` when a response is relayed,
`RecordError` on upstream transport failure); requests answered 404, 403,
429 or 503 — and ACME challenge requests — produce no metrics record. -/
theorem c4_theorem (st : ProxyState) (r : Request) (allow : String → Limiter → Bool)
    (upstream : UpstreamResult) :
    (serveHTTP st r allow upstream).2.1.length =
      if reachedUpstream (serveHTTP st r allow upstream).1 then 1 else 0 := by
  simp only [serveHTTP]
  repeat' split
  all_goals first
  | rfl
  | simp_all [reachedUpstream]

/-! ### Claim C6: IP rule semantics -/

theorem ipRulesVerdict_eq_find (rules : List IPRule) (ip : Nat) :
    ipRulesVerdict rules ip =
      ((rules.find? fun r => r.ipRange.contains ip).all
        fun r => r.ruleType == "whitelist") := by
  induction rules with
  | nil => rfl
  | cons r rs ih =>
    by_cases h : r.ipRange.contains ip = true
    · have hf : List.find? (fun x => x.ipRange.contains ip) (r :: rs) = some r := by
        simp only [List.find?, h]
      rw [ipRulesVerdict, if_pos h, hf]
      rfl
    · have hfalse : r.ipRange.contains ip = false := by simpa using h
      have hf : List.find? (fun x => x.ipRange.contains ip) (r :: rs) =
          List.find? (fun x => x.ipRange.contains ip) rs := by
        simp only [List.find?, hfalse]
      rw [ipRulesVerdict, if_neg h, hf, ih]

/-- C6: for a client peer address that parses to an IP, `checkIPRules`
admits the request iff the first rule whose CIDR contains the IP is a
whitelist rule, or no rule contains it; and a denied request is answered
`403 Forbidden` with no metrics record, no state change, and no upstream
contact. -/
theorem c6_theorem (addr : String) (cfg : DomainConfig) (ip : Nat)
    (hip : parseIPv4 (stripPort addr) = some ip) :
    (checkIPRules addr cfg =
      ((cfg.ipRules.find? fun r => r.ipRange.contains ip).all
        fun r => r.ruleType == "whitelist"))
  ∧ (∀ (st : ProxyState) (r : Request) (allow : String → Limiter → Bool)
        (up : UpstreamResult) (cfg' : DomainConfig),
        r.remoteAddr = addr →
        strStartsWith r.path "/.well-known/acme-challenge/" = false →
        storeFind? st.domains (stripPort r.host) = some cfg' →
        checkIPRules addr cfg' = false →
        serveHTTP st r allow up = (.forbidden, [], st)) := by
  constructor
  · unfold checkIPRules
    rw [hip]
    exact ipRulesVerdict_eq_find cfg.ipRules ip
  · intro st r allow up cfg' hra hacme hfind hdeny
    simp only [serveHTTP]
    rw [if_neg (by simp [hacme]), hfind]
    dsimp only
    rw [hra, if_neg (by simp [hdeny])]

/-- Witness for C6: a blacklisted client is denied with `403`. -/
theorem c6_witness :
    (checkIPRules c6addr c6cfg =
      ((c6cfg.ipRules.find? fun r => r.ipRange.contains 3405803783).all
        fun r => r.ruleType == "whitelist"))
  ∧ serveHTTP c6state c6req allowAlways (.response 200) = (.forbidden, [], c6state) :=
  ⟨(c6_theorem c6addr c6cfg 3405803783 rfl).1,
   (c6_theorem c6addr c6cfg 3405803783 rfl).2 c6state c6req allowAlways
     (.response 200) c6cfg rfl rfl rfl rfl⟩

/-! ### Claim C7: rate limiting -/

/-- C7: with a `RateLimit` configured, the limiter is looked up — or
lazily created with refill rate `requestsPerSecond` and capacity
`burstSize` — under the key `routingKey` when `perClient` (`PerIP`) is
false and `routingKey ++ "-" ++ clientHost` when true; and when no token
is available the request is answered `429 Too Many Requests` with no
upstream contact and no metrics record. -/
theorem c7_theorem (st : ProxyState) (r : Request) (cfg : DomainConfig) (rl : RateLimit)
    (allow : String → Limiter → Bool) (up : UpstreamResult)
    (hacme : strStartsWith r.path "/.well-known/acme-challenge/" = false)
    (hfind : storeFind? st.domains (stripPort r.host) = some cfg)
    (hip : checkIPRules r.remoteAddr cfg = true)
    (hrl : cfg.rateLimit = some rl) :
    ((regFind? st.rateLimiters (rateLimitKey cfg r.remoteAddr rl) = none →
        (checkRateLimit st.rateLimiters cfg r.remoteAddr allow).2 =
          st.rateLimiters ++ [(rateLimitKey cfg r.remoteAddr rl,
            ⟨rl.requestsPerSecond, rl.burstSize⟩)] ∧
        (checkRateLimit st.rateLimiters cfg r.remoteAddr allow).1 =
          allow (rateLimitKey cfg r.remoteAddr rl) ⟨rl.requestsPerSecond, rl.burstSize⟩)
  ∧ (∀ l0, regFind? st.rateLimiters (rateLimitKey cfg r.remoteAddr rl) = some l0 →
        (checkRateLimit st.rateLimiters cfg r.remoteAddr allow).2 = st.rateLimiters ∧
        (checkRateLimit st.rateLimiters cfg r.remoteAddr allow).1 =
          allow (rateLimitKey cfg r.remoteAddr rl) l0)
  ∧ ((checkRateLimit st.rateLimiters cfg r.remoteAddr allow).1 = false →
        serveHTTP st r allow up =
          (.tooManyRequests, [],
            { st with rateLimiters :=
                (checkRateLimit st.rateLimiters cfg r.remoteAddr allow).2 }))) := by
  refine ⟨?_, ?_, ?_⟩
  · intro hnone
    simp [checkRateLimit, hrl, loadOrStore, hnone]
  · intro l0 hsome
    simp [checkRateLimit, hrl, loadOrStore, hsome]
  · intro hdeny
    simp only [serveHTTP]
    rw [if_neg (by simp [hacme]), hfind]
    dsimp only
    rw [if_pos hip, if_neg (by simp [hdeny])]

/-- Witness for C7: an empty registry lazily creates the per-client-keyed
limiter, and a denied token yields `429`. -/
theorem c7_witness :
    ((checkRateLimit c7state.rateLimiters c7cfg c7req.remoteAddr allowNever).2 =
        c7state.rateLimiters ++ [(rateLimitKey c7cfg c7req.remoteAddr c7rl, ⟨2, 2⟩)] ∧
      (checkRateLimit c7state.rateLimiters c7cfg c7req.remoteAddr allowNever).1 =
        allowNever (rateLimitKey c7cfg c7req.remoteAddr c7rl) ⟨2, 2⟩)
  ∧ serveHTTP c7state c7req allowNever (.response 200) =
      (.tooManyRequests, [],
        { c7state with rateLimiters :=
            (checkRateLimit c7state.rateLimiters c7cfg c7req.remoteAddr allowNever).2 }) :=
  ⟨(c7_theorem c7state c7req c7cfg c7rl allowNever (.response 200) rfl rfl rfl rfl).1 rfl,
   (c7_theorem c7state c7req c7cfg c7rl allowNever (.response 200) rfl rfl rfl rfl).2.2 rfl⟩

/-! ### Claim C10: unparseable client addresses -/

/-- C10: when the client peer address (after the port-strip attempt) does
not parse as an IP, `checkIPRules` returns false for every config —
including one with no IP rules at all — and the request is answered
`403 Forbidden`. -/
theorem c10_theorem (addr : String) (hip : parseIPv4 (stripPort addr) = none) :
    (∀ cfg : DomainConfig, checkIPRules addr cfg = false)
  ∧ (∀ (st : ProxyState) (r : Request) (allow : String → Limiter → Bool)
        (up : UpstreamResult) (cfg : DomainConfig),
        r.remoteAddr = addr →
        strStartsWith r.path "/.well-known/acme-challenge/" = false →
        storeFind? st.domains (stripPort r.host) = some cfg →
        serveHTTP st r allow up = (.forbidden, [], st)) := by
  have hcheck : ∀ cfg : DomainConfig, checkIPRules addr cfg = false := by
    intro cfg
    unfold checkIPRules
    rw [hip]
  refine ⟨hcheck, ?_⟩
  intro st r allow up cfg hra hacme hfind
  simp only [serveHTTP]
  rw [if_neg (by simp [hacme]), hfind]
  dsimp only
  rw [hra, if_neg (by simp [hcheck cfg])]

/-- Witness for C10: the peer address `@` parses to no IP; the request is
rejected `403` even though the config has no IP rules. -/
theorem c10_witness :
    checkIPRules c10addr c10cfg = false ∧
    serveHTTP c10state c10req allowAlways (.response 200) = (.forbidden, [], c10state) :=
  ⟨(c10_theorem c10addr rfl).1 c10cfg,
   (c10_theorem c10addr rfl).2 c10state c10req allowAlways (.response 200) c10cfg rfl rfl rfl⟩

end ViaCortex
